import Mathlib

/-
Verification of the Conway's Game of Life simulation engine in src/game.js.

The engine state (class GameOfLife) is embedded as a Lean structure; grids
are JS arrays of booleans, embedded as `List (List Bool)`.  A JS read past
the end of an array yields `undefined`, which is falsy wherever the source
tests it, so out-of-range reads are modelled by a default of `false`.  The
repeating timer (setInterval / clearInterval) is modelled by an explicit
scheduler ledger inside the state: the list of armed repeating timers
(handle and delay in milliseconds) plus a fresh-handle counter.
-/

namespace GameOfLife

/-- JS read `g[row][col]` on a grid: a missing row or a missing entry reads
as `undefined`, which is falsy, hence the `false` defaults. -/
def cellAt (g : List (List Bool)) (row col : Nat) : Bool :=
  (g.getD row []).getD col false

/-- JS write `r[col] = v` on an array of booleans: in range it updates the
entry; past the end it extends the array, the skipped holes reading back as
`undefined` (falsy, hence `false`). -/
def setEntry (r : List Bool) (col : Nat) (v : Bool) : List Bool :=
  if col < r.length then r.set col v
  else r ++ List.replicate (col - r.length) false ++ [v]

/-- The fields of `class GameOfLife` that belong to the simulation core
(lines 2-9 of src/game.js), plus the scheduler ledger `armed` / `nextHandle`
modelling the browser's setInterval pool: `armed` lists every currently
armed repeating timer as (handle, delay in ms). -/
structure GameState where
  gridSize : Nat
  currentGrid : List (List Bool)
  nextGrid : List (List Bool)
  isRunning : Bool
  generation : Nat
  intervalId : Option Nat
  speed : Int
  armed : List (Nat × Int)
  nextHandle : Nat
  deriving DecidableEq, Repr

/-- `initializeGrids` (src/game.js lines 66-78) fills both grids, row by
row, with `false`: the result is a `gridSize x gridSize` grid of dead
cells. -/
def deadGrid (n : Nat) : List (List Bool) :=
  List.replicate n (List.replicate n false)

/-- The constructor (src/game.js lines 2-16): stores the size, builds both
grids dead via `initializeGrids`, generation 0, not running, no timer,
default speed 5.  There is no validation of `gridSize` in the source.  The
DOM and theme calls are presentation-only and not part of the core state. -/
def new (gridSize : Nat) : GameState :=
  { gridSize := gridSize
    currentGrid := deadGrid gridSize
    nextGrid := deadGrid gridSize
    isRunning := false
    generation := 0
    intervalId := none
    speed := 5
    armed := []
    nextHandle := 0 }

/-- `countLiveCells` (src/game.js lines 53-63): double loop over
`[0, gridSize)` accumulating a count of truthy cells of `currentGrid`. -/
def countLiveCells (s : GameState) : Nat :=
  (List.range s.gridSize).foldl (fun count row =>
    (List.range s.gridSize).foldl (fun count col =>
      if cellAt s.currentGrid row col then count + 1 else count) count) 0

/-- The loop bounds `-1 .. 1` of the neighbor scan. -/
def deltas : List Int := [-1, 0, 1]

/-- `countLiveNeighbors` (src/game.js lines 130-153): scans the 3 x 3
block of offsets, skips (0,0), and counts a neighbor only when it is
inside `[0, gridSize)` in both coordinates and truthy in `currentGrid`.
Coordinates are `Int` because `row - 1` may be negative. -/
def countLiveNeighbors (s : GameState) (row col : Int) : Nat :=
  deltas.foldl (fun count deltaRow =>
    deltas.foldl (fun count deltaCol =>
      if deltaRow = 0 ∧ deltaCol = 0 then count
      else
        let neighborRow := row + deltaRow
        let neighborCol := col + deltaCol
        if 0 ≤ neighborRow ∧ neighborRow < (s.gridSize : Int) ∧
            0 ≤ neighborCol ∧ neighborCol < (s.gridSize : Int) then
          if cellAt s.currentGrid neighborRow.toNat neighborCol.toNat then
            count + 1
          else count
        else count) count) 0

/-- `calculateNextGeneration` (src/game.js lines 156-182): for every
(row, col) in `[0, gridSize)` it writes `nextGrid[row][col]` from the rule
applied to `currentGrid[row][col]` and `countLiveNeighbors(row, col)`,
reading only `currentGrid`.  Since the loop overwrites every entry of the
`gridSize x gridSize` scratch buffer and reads none of it, the in-place
writes amount to rebuilding `nextGrid` wholesale, modelled here as a map. -/
def calculateNextGeneration (s : GameState) : GameState :=
  { s with nextGrid :=
      (List.range s.gridSize).map (fun (row : Nat) =>
        (List.range s.gridSize).map (fun (col : Nat) =>
          let liveNeighbors := countLiveNeighbors s (row : Int) (col : Int)
          let isAlive := cellAt s.currentGrid row col
          if isAlive then
            if liveNeighbors < 2 then false
            else if liveNeighbors = 2 ∨ liveNeighbors = 3 then true
            else false
          else
            if liveNeighbors = 3 then true
            else false)) }

/-- `step` (src/game.js lines 185-193): compute the next generation into
the scratch buffer, swap the two grids, increment the generation. -/
def step (s : GameState) : GameState :=
  let s1 := calculateNextGeneration s
  { s1 with currentGrid := s1.nextGrid
            nextGrid := s1.currentGrid
            generation := s1.generation + 1 }

/-- `toggleCell` (src/game.js lines 103-106):
`this.currentGrid[row][col] = !this.currentGrid[row][col]` with no bounds
check.  When `row` is not an index of `currentGrid`, `currentGrid[row]` is
`undefined` and indexing it throws a TypeError before anything is mutated:
modelled as `none`.  Otherwise `!` of a missing entry (`undefined`, falsy)
is `true`, and the write extends the row array when `col` is past its
end. -/
def toggleCell (s : GameState) (row col : Nat) : Option GameState :=
  match s.currentGrid.get? row with
  | none => none
  | some r =>
      some { s with currentGrid :=
        s.currentGrid.set row (setEntry r col (!(r.getD col false))) }

/-- The inter-step delay computed by `start` (src/game.js line 200):
`Math.max(50, 1000 - (this.speed - 1) * 45)`. -/
def interval (speed : Int) : Int :=
  max 50 (1000 - (speed - 1) * 45)

/-- `start` (src/game.js lines 196-207): no-op when already running;
otherwise set `isRunning`, compute the delay from `speed`, and arm one
repeating timer (`setInterval` hands back a fresh handle, recorded in
`intervalId` and in the scheduler ledger). -/
def start (s : GameState) : GameState :=
  if s.isRunning then s
  else
    { s with isRunning := true
             intervalId := some s.nextHandle
             armed := (s.nextHandle, interval s.speed) :: s.armed
             nextHandle := s.nextHandle + 1 }

/-- `pause` (src/game.js lines 210-218): no-op when not running; otherwise
clear `isRunning`, cancel the armed timer (`clearInterval(this.intervalId)`
removes that handle from the scheduler ledger) and null the handle. -/
def pause (s : GameState) : GameState :=
  if !s.isRunning then s
  else
    { s with isRunning := false
             armed := (match s.intervalId with
                       | some h => s.armed.filter (fun e => e.fst != h)
                       | none => s.armed)
             intervalId := none }

/-- `toggleStartPause` (src/game.js lines 221-227). -/
def toggleStartPause (s : GameState) : GameState :=
  if s.isRunning then pause s else start s

/-- `clear` (src/game.js lines 230-235): pause, re-run `initializeGrids`
(both grids all dead), reset the generation counter. -/
def clear (s : GameState) : GameState :=
  let s1 := pause s
  { s1 with currentGrid := deadGrid s1.gridSize
            nextGrid := deadGrid s1.gridSize
            generation := 0 }

/-- `randomize` (src/game.js lines 238-249): pause, then set every cell of
`currentGrid` in `[0, gridSize)` from an independent coin
(`Math.random() < 0.3`), reset the generation counter.  The sequence of
coin outcomes is abstracted as the function `rand`; the loop overwrites
every in-range entry reading none, modelled as a rebuild. -/
def randomize (s : GameState) (rand : Nat → Nat → Bool) : GameState :=
  let s1 := pause s
  { s1 with currentGrid :=
      (List.range s1.gridSize).map (fun row =>
        (List.range s1.gridSize).map (fun col => rand row col))
            generation := 0 }

/-- `setSpeed` (src/game.js lines 252-260): store the new speed with no
validation; when running, restart (pause then start) so the new delay is
armed immediately. -/
def setSpeed (s : GameState) (newSpeed : Int) : GameState :=
  let s1 := { s with speed := newSpeed }
  if s1.isRunning then start (pause s1) else s1

/-- The public operations that can hit a live engine (src/game.js event
bindings and timer callback).  `randomize` carries the coin outcomes; a
`toggleCell` whose row is out of range throws before mutating, leaving the
state as it was. -/
inductive Op where
  | start
  | pause
  | toggleStartPause
  | step
  | clear
  | randomize (rand : Nat → Nat → Bool)
  | setSpeed (newSpeed : Int)
  | toggleCell (row col : Nat)

/-- Dispatch one operation on the state. -/
def applyOp (s : GameState) : Op → GameState
  | Op.start => start s
  | Op.pause => pause s
  | Op.toggleStartPause => toggleStartPause s
  | Op.step => step s
  | Op.clear => clear s
  | Op.randomize rand => randomize s rand
  | Op.setSpeed n => setSpeed s n
  | Op.toggleCell row col => (toggleCell s row col).getD s

/-- Run a sequence of operations from a state. -/
def run (s : GameState) (ops : List Op) : GameState :=
  ops.foldl applyOp s

/-- The timer/run-state invariant: `isRunning` holds exactly when a handle
is stored, and the scheduler ledger holds exactly that handle (so at most
one repeating timer is armed). -/
def TimerInv (s : GameState) : Prop :=
  s.isRunning = s.intervalId.isSome ∧
  s.armed.map Prod.fst = (match s.intervalId with
                          | some h => [h]
                          | none => [])

instance (s : GameState) : Decidable (TimerInv s) := by
  unfold TimerInv
  exact instDecidableAnd

/-- Well-formedness of the editable grid: `currentGrid` is a square
`gridSize x gridSize` array, as every state reachable by the public
operations from the constructor keeps it. -/
def WF (s : GameState) : Prop :=
  s.currentGrid.length = s.gridSize ∧ ∀ r ∈ s.currentGrid, r.length = s.gridSize

instance (s : GameState) : Decidable (WF s) := by
  unfold WF
  exact instDecidableAnd

/-- The 8 adjacent offsets named by the spec: all combinations of
row plus or minus 1 and col plus or minus 1, excluding the cell itself. -/
def adjacentOffsets : List (Int × Int) :=
  [(-1, -1), (-1, 0), (-1, 1), (0, -1), (0, 1), (1, -1), (1, 0), (1, 1)]

/-- Spec-side reading of one position for the neighbor count: alive when it
lies inside the grid bounds and is alive on `currentGrid`; any coordinate
outside grid bounds is treated as dead (no wraparound). -/
def specAliveAt (s : GameState) (r c : Int) : Bool :=
  if 0 ≤ r ∧ r < (s.gridSize : Int) ∧ 0 ≤ c ∧ c < (s.gridSize : Int) then
    cellAt s.currentGrid r.toNat c.toNat
  else false

/-- Spec-side neighbor count: the number of alive cells among the 8
adjacent positions. -/
def specNeighborCount (s : GameState) (row col : Int) : Nat :=
  (adjacentOffsets.map (fun p =>
    if specAliveAt s (row + p.1) (col + p.2) then 1 else 0)).sum

/-- The loop body of the neighbor scan of `countLiveNeighbors`, named so
the proofs below can manipulate one iteration at a time. -/
def scanBody (s : GameState) (row col deltaRow : Int) (count : Nat) (deltaCol : Int) : Nat :=
  if deltaRow = 0 ∧ deltaCol = 0 then count
  else
    if 0 ≤ row + deltaRow ∧ row + deltaRow < (s.gridSize : Int) ∧
        0 ≤ col + deltaCol ∧ col + deltaCol < (s.gridSize : Int) then
      if cellAt s.currentGrid (row + deltaRow).toNat (col + deltaCol).toNat then count + 1
      else count
    else count

/-- Reading any entry of a replicated list yields the replicated value or
the default. -/
lemma getD_replicate {α : Type} (d a : α) :
    ∀ (n i : Nat), (List.replicate n a).getD i d = if i < n then a else d := by
  intro n
  induction n with
  | zero => intro i; simp [List.replicate]
  | succ m ih =>
      intro i
      cases i with
      | zero => simp [List.replicate]
      | succ j => simpa [List.replicate, Nat.succ_lt_succ_iff] using ih j

/-- Every cell of the dead grid reads as dead. -/
lemma cellAt_deadGrid (n row col : Nat) : cellAt (deadGrid n) row col = false := by
  unfold cellAt deadGrid
  rcases Nat.lt_or_ge row n with h | h
  · rw [getD_replicate _ _ n row, if_pos h, getD_replicate]
    split <;> rfl
  · rw [getD_replicate _ _ n row, if_neg (Nat.not_lt.mpr h)]
    rfl

/-- Reading an in-range entry of a map over `List.range`. -/
lemma getD_map_range {α : Type} (n i : Nat) (h : i < n) (f : Nat → α) (d : α) :
    ((List.range n).map f).getD i d = f i := by
  rw [List.getD_eq_getD_get?, List.get?_map, List.get?_range h]
  rfl

/-- Reading an in-range cell of a grid rebuilt by a double map over
`List.range`. -/
lemma cellAt_map_grid (n : Nat) (f : Nat → Nat → Bool) (row col : Nat)
    (hr : row < n) (hc : col < n) :
    cellAt ((List.range n).map (fun r => (List.range n).map (f r))) row col =
      f row col := by
  unfold cellAt
  rw [getD_map_range n row hr, getD_map_range n col hc]

/-- Writing back the value an index already holds is the identity. -/
lemma set_getD_self {α : Type} (d : α) :
    ∀ (l : List α) (i : Nat), i < l.length → l.set i (l.getD i d) = l := by
  intro l
  induction l with
  | nil => intro i h; simp at h
  | cons a t ih =>
      intro i h
      cases i with
      | zero => rfl
      | succ j =>
          simp only [List.set, List.getD, List.get?, List.length_cons] at *
          rw [ih j (by omega)]

/-- After `step`, `currentGrid` is the freshly computed buffer: the rule
applied pointwise over the pre-step grid. -/
lemma step_currentGrid (s : GameState) :
    (step s).currentGrid =
      (List.range s.gridSize).map (fun (row : Nat) =>
        (List.range s.gridSize).map (fun (col : Nat) =>
          let liveNeighbors := countLiveNeighbors s (row : Int) (col : Int)
          let isAlive := cellAt s.currentGrid row col
          if isAlive then
            if liveNeighbors < 2 then false
            else if liveNeighbors = 2 ∨ liveNeighbors = 3 then true
            else false
          else
            if liveNeighbors = 3 then true
            else false)) := rfl

/-- The neighbor count reads only `gridSize` and `currentGrid`. -/
lemma countLiveNeighbors_congr (s1 s2 : GameState)
    (hsize : s1.gridSize = s2.gridSize) (hgrid : s1.currentGrid = s2.currentGrid) :
    countLiveNeighbors s1 = countLiveNeighbors s2 := by
  funext row col
  unfold countLiveNeighbors
  rw [hsize, hgrid]

/-- One iteration of the neighbor scan adds the spec-side contribution of
that position to the running count. -/
lemma neighbor_step_eq (s : GameState) (r c : Int) (count : Nat) :
    (if 0 ≤ r ∧ r < (s.gridSize : Int) ∧ 0 ≤ c ∧ c < (s.gridSize : Int) then
       if cellAt s.currentGrid r.toNat c.toNat then count + 1 else count
     else count)
    = count + (if specAliveAt s r c then 1 else 0) := by
  unfold specAliveAt
  by_cases hb : 0 ≤ r ∧ r < (s.gridSize : Int) ∧ 0 ≤ c ∧ c < (s.gridSize : Int)
  · rw [if_pos hb, if_pos hb]
    cases hcell : cellAt s.currentGrid r.toNat c.toNat <;> simp [hcell]
  · rw [if_neg hb, if_neg hb]
    simp

/-- A fold whose body adds a per-element contribution to the accumulator
equals the start value plus the fold from 0. -/
lemma foldl_linear {α : Type} (g : Nat → α → Nat)
    (hg : ∀ count x, g count x = count + g 0 x) :
    ∀ (l : List α) (count : Nat), l.foldl g count = count + l.foldl g 0 := by
  intro l
  induction l with
  | nil => intro count; simp
  | cons x xs ih =>
      intro count
      rw [List.foldl_cons, List.foldl_cons, ih (g count x), ih (g 0 x), hg count x]
      omega

/-- One scan iteration adds its own contribution to the running count. -/
lemma scanBody_linear (s : GameState) (row col deltaRow : Int) (count : Nat) (deltaCol : Int) :
    scanBody s row col deltaRow count deltaCol = count + scanBody s row col deltaRow 0 deltaCol := by
  unfold scanBody
  split_ifs <;> omega

/-- A non-skipped scan iteration contributes exactly the spec-side reading
of its position. -/
lemma scanBody_eval (s : GameState) (row col deltaRow deltaCol : Int)
    (h : ¬(deltaRow = 0 ∧ deltaCol = 0)) :
    scanBody s row col deltaRow 0 deltaCol =
      (if specAliveAt s (row + deltaRow) (col + deltaCol) then 1 else 0) := by
  unfold scanBody
  rw [if_neg h, neighbor_step_eq s (row + deltaRow) (col + deltaCol) 0]
  omega

/-- The neighbor scan of the source computes exactly the spec-side count of
alive cells among the 8 adjacent positions. -/
lemma countLiveNeighbors_eq_spec (s : GameState) (row col : Int) :
    countLiveNeighbors s row col = specNeighborCount s row col := by
  have hG : ∀ (count : Nat) (dr : Int),
      deltas.foldl (scanBody s row col dr) count = count + deltas.foldl (scanBody s row col dr) 0 :=
    fun count dr => foldl_linear (scanBody s row col dr) (scanBody_linear s row col dr) deltas count
  have e1 : countLiveNeighbors s row col =
      deltas.foldl (scanBody s row col 1)
        (deltas.foldl (scanBody s row col 0)
          (deltas.foldl (scanBody s row col (-1)) 0)) := rfl
  have e2 : ∀ dr : Int, deltas.foldl (scanBody s row col dr) 0 =
      scanBody s row col dr (scanBody s row col dr (scanBody s row col dr 0 (-1)) 0) 1 :=
    fun dr => rfl
  rw [e1, hG _ 1, hG _ 0, e2, e2, e2,
      scanBody_linear s row col (-1) _ 1, scanBody_linear s row col (-1) _ 0,
      scanBody_linear s row col 0 _ 1, scanBody_linear s row col 0 _ 0,
      scanBody_linear s row col 1 _ 1, scanBody_linear s row col 1 _ 0]
  have hz : scanBody s row col 0 0 0 = 0 := by unfold scanBody; simp
  rw [hz,
      scanBody_eval s row col (-1) (-1) (by simp),
      scanBody_eval s row col (-1) 0 (by simp),
      scanBody_eval s row col (-1) 1 (by simp),
      scanBody_eval s row col 0 (-1) (by simp),
      scanBody_eval s row col 0 1 (by simp),
      scanBody_eval s row col 1 (-1) (by simp),
      scanBody_eval s row col 1 0 (by simp),
      scanBody_eval s row col 1 1 (by simp)]
  have espec : specNeighborCount s row col =
      (if specAliveAt s (row + -1) (col + -1) then 1 else 0) +
      ((if specAliveAt s (row + -1) (col + 0) then 1 else 0) +
      ((if specAliveAt s (row + -1) (col + 1) then 1 else 0) +
      ((if specAliveAt s (row + 0) (col + -1) then 1 else 0) +
      ((if specAliveAt s (row + 0) (col + 1) then 1 else 0) +
      ((if specAliveAt s (row + 1) (col + -1) then 1 else 0) +
      ((if specAliveAt s (row + 1) (col + 0) then 1 else 0) +
      ((if specAliveAt s (row + 1) (col + 1) then 1 else 0) + 0))))))) := rfl
  rw [espec]
  ring

/-- Claim C2: for every cell coordinate, `countLiveNeighbors(row, col)`
returns an integer in [0, 8] equal to the number of alive cells among the
8 adjacent positions (all combinations of row plus or minus 1 and col plus
or minus 1, excluding the cell itself), where any neighbor coordinate
outside grid bounds counts as dead (no wraparound).  The Lean embedding is
a pure function, matching the source, which only reads engine state here. -/
theorem countLiveNeighbors_counts_adjacent (s : GameState) (row col : Int) :
    countLiveNeighbors s row col = specNeighborCount s row col ∧
    countLiveNeighbors s row col ≤ 8 := by
  have key := countLiveNeighbors_eq_spec s row col
  refine ⟨key, ?_⟩
  rw [key]
  unfold specNeighborCount adjacentOffsets
  simp only [List.map_cons, List.map_nil, List.sum_cons, List.sum_nil]
  split_ifs <;> simp

/-- Claim C1: for every engine and every in-grid cell (row, col), after
`step()` the cell's state in `currentGrid` equals Conway's rule applied to
the pre-step `currentGrid`: an alive cell survives exactly when it has 2
or 3 live neighbors (fewer than 2 or more than 3 kills it), and a dead
cell becomes alive exactly when it has 3 live neighbors.  Every neighbor
count is `countLiveNeighbors` evaluated on the pre-step state `s`, never
on partially updated state. -/
theorem step_applies_conway_rule (s : GameState) (row col : Nat)
    (hr : row < s.gridSize) (hc : col < s.gridSize) :
    (cellAt s.currentGrid row col = true →
      (cellAt (step s).currentGrid row col = true ↔
        (countLiveNeighbors s (row : Int) (col : Int) = 2 ∨
         countLiveNeighbors s (row : Int) (col : Int) = 3))) ∧
    (cellAt s.currentGrid row col = false →
      (cellAt (step s).currentGrid row col = true ↔
        countLiveNeighbors s (row : Int) (col : Int) = 3)) := by
  rw [step_currentGrid, cellAt_map_grid s.gridSize _ row col hr hc]
  cases hAlive : cellAt s.currentGrid row col with
  | false =>
      refine ⟨fun h => by simp at h, fun _ => ?_⟩
      by_cases h3 : countLiveNeighbors s (row : Int) (col : Int) = 3 <;> simp [h3]
  | true =>
      refine ⟨fun _ => ?_, fun h => by simp at h⟩
      by_cases h1 : countLiveNeighbors s (row : Int) (col : Int) < 2 <;>
        by_cases h2 : countLiveNeighbors s (row : Int) (col : Int) = 2 ∨
          countLiveNeighbors s (row : Int) (col : Int) = 3 <;>
        simp [h1, h2] <;> omega

/-- Witness for C1 at the concrete engine `new 3` and cell (1, 1). -/
theorem step_applies_conway_rule_witness :
    (cellAt (new 3).currentGrid 1 1 = true →
      (cellAt (step (new 3)).currentGrid 1 1 = true ↔
        (countLiveNeighbors (new 3) (1 : Int) (1 : Int) = 2 ∨
         countLiveNeighbors (new 3) (1 : Int) (1 : Int) = 3))) ∧
    (cellAt (new 3).currentGrid 1 1 = false →
      (cellAt (step (new 3)).currentGrid 1 1 = true ↔
        countLiveNeighbors (new 3) (1 : Int) (1 : Int) = 3)) :=
  step_applies_conway_rule (new 3) 1 1 (by decide) (by decide)

/-- Claim C3: `step()` is a deterministic function of `currentGrid` alone:
two states with the same grid size and the same `currentGrid` contents
step to the same `currentGrid`, whatever their other fields hold. -/
theorem step_deterministic (s1 s2 : GameState)
    (hsize : s1.gridSize = s2.gridSize) (hgrid : s1.currentGrid = s2.currentGrid) :
    (step s1).currentGrid = (step s2).currentGrid := by
  rw [step_currentGrid, step_currentGrid, countLiveNeighbors_congr s1 s2 hsize hgrid,
      hsize, hgrid]

/-- Witness for C3 at two concrete states sharing the same grid. -/
theorem step_deterministic_witness :
    (step (new 2)).currentGrid = (step (clear (new 2))).currentGrid :=
  step_deterministic (new 2) (clear (new 2)) (by decide) (by decide)

/-- A ledger that projects to a single handle is one entry with that
handle, so cancelling the handle empties the ledger. -/
lemma map_fst_singleton_filter {l : List (Nat × Int)} {h0 : Nat}
    (h : l.map Prod.fst = [h0]) : l.filter (fun e => e.fst != h0) = [] := by
  cases l with
  | nil => simp at h
  | cons a t =>
      cases t with
      | nil =>
          simp only [List.map_cons, List.map_nil, List.cons.injEq] at h
          simp [List.filter, h.1]
      | cons b u => simp at h

/-- A fresh engine satisfies the timer invariant. -/
lemma timerInv_new (n : Nat) : TimerInv (new n) := by
  unfold TimerInv new
  simp

/-- `start` preserves the timer invariant: a no-op when running, and when
stopped it arms exactly one timer and records its handle. -/
lemma timerInv_start (s : GameState) (h : TimerInv s) : TimerInv (start s) := by
  obtain ⟨h1, h2⟩ := h
  unfold start
  by_cases hr : s.isRunning = true
  · rw [if_pos hr]; exact ⟨h1, h2⟩
  · rw [if_neg hr]
    have hnone : s.intervalId = none := by
      cases hid : s.intervalId with
      | none => rfl
      | some h0 =>
          rw [hid] at h1
          simp [Bool.not_eq_true] at hr
          rw [hr] at h1
          simp at h1
    rw [hnone] at h2
    simp only at h2
    unfold TimerInv
    simp [h2]

/-- `pause` preserves the timer invariant: a no-op when stopped, and when
running it cancels the armed timer and clears the handle. -/
lemma timerInv_pause (s : GameState) (h : TimerInv s) : TimerInv (pause s) := by
  obtain ⟨h1, h2⟩ := h
  unfold pause
  by_cases hr : s.isRunning = true
  · rw [if_neg (by simp [hr])]
    cases hid : s.intervalId with
    | none => rw [hid, hr] at h1; simp at h1
    | some h0 =>
        rw [hid] at h2
        simp only at h2
        unfold TimerInv
        simp [hid, map_fst_singleton_filter h2]
  · rw [if_pos (by simp [Bool.not_eq_true] at hr; simp [hr])]
    exact ⟨h1, h2⟩

/-- Every public operation preserves the timer invariant. -/
lemma timerInv_applyOp (s : GameState) (op : Op) (h : TimerInv s) :
    TimerInv (applyOp s op) := by
  cases op with
  | start => exact timerInv_start s h
  | pause => exact timerInv_pause s h
  | toggleStartPause =>
      show TimerInv (toggleStartPause s)
      unfold toggleStartPause
      by_cases hr : s.isRunning = true
      · rw [if_pos hr]; exact timerInv_pause s h
      · rw [if_neg hr]; exact timerInv_start s h
  | step => exact ⟨h.1, h.2⟩
  | clear => exact timerInv_pause s h
  | randomize rand => exact timerInv_pause s h
  | setSpeed n =>
      show TimerInv (setSpeed s n)
      unfold setSpeed
      by_cases hr : s.isRunning = true
      · rw [if_pos hr]
        exact timerInv_start _ (timerInv_pause _ ⟨h.1, h.2⟩)
      · rw [if_neg hr]
        exact ⟨h.1, h.2⟩
  | toggleCell row col =>
      show TimerInv ((toggleCell s row col).getD s)
      unfold toggleCell
      cases hg : s.currentGrid.get? row with
      | none => exact h
      | some r => exact ⟨h.1, h.2⟩

/-- The timer invariant holds along every run of public operations. -/
lemma timerInv_run (s : GameState) (ops : List Op) (h : TimerInv s) :
    TimerInv (run s ops) := by
  induction ops generalizing s with
  | nil => exact h
  | cons op rest ih => exact ih (applyOp s op) (timerInv_applyOp s op h)

/-- The generation counter moves only as the spec says: +1 in `step`,
reset to 0 by `clear` and `randomize`, untouched by everything else. -/
lemma generation_applyOp (s : GameState) (op : Op) :
    (applyOp s op).generation =
      (match op with
       | Op.step => s.generation + 1
       | Op.clear => 0
       | Op.randomize _ => 0
       | _ => s.generation) := by
  cases op with
  | start => show (start s).generation = s.generation; unfold start; split_ifs <;> rfl
  | pause => show (pause s).generation = s.generation; unfold pause; split_ifs <;> rfl
  | toggleStartPause =>
      show (toggleStartPause s).generation = s.generation
      unfold toggleStartPause start pause
      split_ifs <;> rfl
  | step => rfl
  | clear => rfl
  | randomize rand => rfl
  | setSpeed n =>
      show (setSpeed s n).generation = s.generation
      unfold setSpeed
      by_cases hr : s.isRunning = true
      · rw [if_pos hr]
        unfold start pause
        split_ifs <;> rfl
      · rw [if_neg hr]
  | toggleCell row col =>
      show ((toggleCell s row col).getD s).generation = s.generation
      unfold toggleCell
      cases hg : s.currentGrid.get? row with
      | none => rfl
      | some r => rfl

/-- Claim C4: in every state reachable from construction by any sequence
of the public operations, `isRunning` holds iff the timer handle is set
and at most one repeating timer is armed; `start` while running is a no-op
(it arms nothing); and the generation counter changes only by +1 inside
`step` or by reset to 0 in `clear` / `randomize`. -/
theorem engine_lifecycle_invariants (n : Nat) (ops : List Op) (op : Op) :
    (TimerInv (run (new n) ops) ∧ (run (new n) ops).armed.length ≤ 1) ∧
    ((run (new n) ops).isRunning = true →
      applyOp (run (new n) ops) Op.start = run (new n) ops) ∧
    (applyOp (run (new n) ops) op).generation =
      (match op with
       | Op.step => (run (new n) ops).generation + 1
       | Op.clear => 0
       | Op.randomize _ => 0
       | _ => (run (new n) ops).generation) := by
  have hinv := timerInv_run (new n) ops (timerInv_new n)
  refine ⟨⟨hinv, ?_⟩, ?_, generation_applyOp _ op⟩
  · have hlen := congrArg List.length hinv.2
    rw [List.length_map] at hlen
    rw [hlen]
    cases (run (new n) ops).intervalId <;> simp
  · intro hrun
    show start (run (new n) ops) = run (new n) ops
    unfold start
    rw [if_pos hrun]

/-- Witness for C4 on a concrete run: size 2, one `start`, then probing
with a `step`. -/
theorem engine_lifecycle_invariants_witness :
    (TimerInv (run (new 2) [Op.start]) ∧ (run (new 2) [Op.start]).armed.length ≤ 1) ∧
    ((run (new 2) [Op.start]).isRunning = true →
      applyOp (run (new 2) [Op.start]) Op.start = run (new 2) [Op.start]) ∧
    (applyOp (run (new 2) [Op.start]) Op.step).generation =
      (run (new 2) [Op.start]).generation + 1 :=
  engine_lifecycle_invariants 2 [Op.start] Op.step

/-- Claim C5 counterexample: construction with size 0 (hence size ≤ 0)
does not fail — the constructor has no size validation and no
InvalidSizeError exists anywhere in the source; it returns an ordinary
engine state whose grids are empty. -/
theorem new_zero_size_not_rejected :
    new 0 = { gridSize := 0, currentGrid := [], nextGrid := [], isRunning := false,
              generation := 0, intervalId := none, speed := 5, armed := [],
              nextHandle := 0 } := rfl

/-- Claim C5 (amended): construction never fails; any size yields an
engine whose `currentGrid` and `nextGrid` are size x size with every cell
dead (empty when size is 0), generation 0, not running, default speed 5. -/
theorem new_produces_dead_engine (n : Nat) :
    (new n).currentGrid.length = n ∧
    (∀ r ∈ (new n).currentGrid, r.length = n ∧ ∀ c ∈ r, c = false) ∧
    (new n).nextGrid = (new n).currentGrid ∧
    (new n).generation = 0 ∧
    (new n).isRunning = false ∧
    (new n).speed = 5 ∧
    (new n).intervalId = none := by
  refine ⟨by simp [new, deadGrid], ?_, rfl, rfl, rfl, rfl, rfl⟩
  intro r hr
  have hrep : r = List.replicate n false := List.eq_of_mem_replicate hr
  subst hrep
  exact ⟨List.length_replicate n false, fun c hc => List.eq_of_mem_replicate hc⟩

/-- Witness for C5 at the concrete size 3. -/
theorem new_produces_dead_engine_witness :
    (new 3).currentGrid.length = 3 ∧
    (∀ r ∈ (new 3).currentGrid, r.length = 3 ∧ ∀ c ∈ r, c = false) ∧
    (new 3).nextGrid = (new 3).currentGrid ∧
    (new 3).generation = 0 ∧
    (new 3).isRunning = false ∧
    (new 3).speed = 5 ∧
    (new 3).intervalId = none :=
  new_produces_dead_engine 3

/-- Claim C7 counterexample: `setSpeed(999)` — far outside 1..20 — is
stored verbatim: no InvalidSpeedError exists in the source and nothing
clamps, the whole effect on a stopped engine is the speed field update. -/
theorem setSpeed_accepts_out_of_range :
    (setSpeed (new 3) 999).speed = 999 ∧
    setSpeed (new 3) 999 = { new 3 with speed := 999 } := ⟨rfl, rfl⟩

/-- Claim C7 (amended): `setSpeed` stores the new speed with no
validation and no clamping; when not running that is its whole effect,
and when running it restarts the timer (pause then start) so that exactly
one timer is armed, at the delay computed from the new speed. -/
theorem setSpeed_stores_and_restarts (s : GameState) (nsp : Int) :
    (setSpeed s nsp).speed = nsp ∧
    (s.isRunning = false → setSpeed s nsp = { s with speed := nsp }) ∧
    (∀ h0 d0, s.isRunning = true → s.intervalId = some h0 → s.armed = [(h0, d0)] →
      (setSpeed s nsp).isRunning = true ∧
      (setSpeed s nsp).intervalId = some s.nextHandle ∧
      (setSpeed s nsp).armed = [(s.nextHandle, interval nsp)]) := by
  refine ⟨?_, ?_, ?_⟩
  · unfold setSpeed
    by_cases hr : s.isRunning = true
    · rw [if_pos hr]
      unfold start pause
      split_ifs <;> rfl
    · rw [if_neg hr]
  · intro hr
    unfold setSpeed
    rw [if_neg (by simp [hr])]
  · intro h0 d0 hr hid harm
    unfold setSpeed
    rw [if_pos hr]
    unfold pause
    rw [if_neg (by simp [hr]), hid]
    unfold start
    rw [if_neg (by simp)]
    refine ⟨rfl, rfl, ?_⟩
    simp [harm]

/-- Witness for C7 on a running engine: speed 9 is stored and exactly one
timer at the new delay is armed. -/
theorem setSpeed_stores_and_restarts_witness :
    (setSpeed (start (new 2)) 9).speed = 9 ∧
    (setSpeed (start (new 2)) 9).isRunning = true ∧
    (setSpeed (start (new 2)) 9).armed = [(1, interval 9)] := by
  have h := setSpeed_stores_and_restarts (start (new 2)) 9
  have h3 := h.2.2 0 (interval 5) (by decide) (by decide) (by decide)
  exact ⟨h.1, h3.1, h3.2.2⟩

/-- Claim C9: the inter-step delay computed by `start()` is exactly
`max(50, 1000 - (speed - 1) * 45)` milliseconds — the armed timer carries
that delay — and over speeds 1..20 the delay is monotonically
non-increasing and never below the 50 ms floor. -/
theorem start_delay_formula (s : GameState) (a b : Int) :
    (s.isRunning = false →
      (start s).armed = (s.nextHandle, interval s.speed) :: s.armed) ∧
    interval s.speed = max 50 (1000 - (s.speed - 1) * 45) ∧
    50 ≤ interval a ∧
    (1 ≤ a → a ≤ b → b ≤ 20 → interval b ≤ interval a) := by
  refine ⟨?_, rfl, le_max_left _ _, ?_⟩
  · intro h
    unfold start
    rw [if_neg (by simp [h])]
  · intro h1 h2 h3
    unfold interval
    exact max_le_max (le_refl 50) (by omega)

/-- Witness for C9 at speeds 3 and 7 on a concrete stopped engine. -/
theorem start_delay_formula_witness :
    (start (new 2)).armed = ((new 2).nextHandle, interval (new 2).speed) :: (new 2).armed ∧
    50 ≤ interval 3 ∧ interval 7 ≤ interval 3 := by
  have h := start_delay_formula (new 2) 3 7
  exact ⟨h.1 (by decide), h.2.2.1, h.2.2.2 (by decide) (by decide) (by decide)⟩

/-- `pause` always leaves the engine stopped. -/
lemma pause_isRunning (s : GameState) : (pause s).isRunning = false := by
  unfold pause
  by_cases hr : s.isRunning = true
  · rw [if_neg (by simp [hr])]
  · rw [if_pos (by simp [Bool.not_eq_true] at hr; simp [hr])]
    simpa [Bool.not_eq_true] using hr

/-- The live-cell scan of a grid whose every in-range read is dead stays
at zero. -/
lemma countLiveCells_all_dead (s : GameState)
    (h : ∀ row col : Nat, cellAt s.currentGrid row col = false) :
    countLiveCells s = 0 := by
  have inner : ∀ (row : Nat) (l : List Nat) (count : Nat),
      l.foldl (fun count col =>
        if cellAt s.currentGrid row col = true then count + 1 else count) count = count := by
    intro row l
    induction l with
    | nil => intro count; rfl
    | cons a t ih =>
        intro count
        rw [List.foldl_cons, if_neg (by simp [h row a])]
        exact ih count
  have outer : ∀ (l : List Nat) (count : Nat),
      l.foldl (fun count row =>
        (List.range s.gridSize).foldl (fun count col =>
          if cellAt s.currentGrid row col = true then count + 1 else count) count) count = count := by
    intro l
    induction l with
    | nil => intro count; rfl
    | cons a t ih =>
        intro count
        rw [List.foldl_cons, inner a]
        exact ih count
  exact outer (List.range s.gridSize) 0

/-- Claim C8: after `clear()` every cell of both grids is dead,
`countLiveCells()` returns 0, the generation counter is 0 and the engine
is stopped; under the timer invariant the active timer was cancelled
(handle cleared, scheduler ledger empty). -/
theorem clear_resets_state (s : GameState) :
    (∀ r ∈ (clear s).currentGrid, ∀ c ∈ r, c = false) ∧
    (clear s).nextGrid = (clear s).currentGrid ∧
    countLiveCells (clear s) = 0 ∧
    (clear s).generation = 0 ∧
    (clear s).isRunning = false ∧
    (TimerInv s → (clear s).intervalId = none ∧ (clear s).armed = []) := by
  refine ⟨?_, rfl, ?_, rfl, pause_isRunning s, ?_⟩
  · intro r hr
    have hrep : r = List.replicate (pause s).gridSize false := List.eq_of_mem_replicate hr
    subst hrep
    exact fun c hc => List.eq_of_mem_replicate hc
  · refine countLiveCells_all_dead (clear s) ?_
    intro row col
    exact cellAt_deadGrid (pause s).gridSize row col
  · intro h
    have hp := timerInv_pause s h
    have hfalse : (pause s).intervalId.isSome = false := by
      rw [← hp.1, pause_isRunning]
    have hidn : (pause s).intervalId = none := by
      cases hi : (pause s).intervalId with
      | none => rfl
      | some x => rw [hi] at hfalse; simp at hfalse
    have harm := hp.2
    rw [hidn] at harm
    simp only at harm
    exact ⟨hidn, List.map_eq_nil_iff.mp harm⟩

/-- Witness for C8: clearing a running engine of size 2. -/
theorem clear_resets_state_witness :
    (∀ r ∈ (clear (start (new 2))).currentGrid, ∀ c ∈ r, c = false) ∧
    (clear (start (new 2))).nextGrid = (clear (start (new 2))).currentGrid ∧
    countLiveCells (clear (start (new 2))) = 0 ∧
    (clear (start (new 2))).generation = 0 ∧
    (clear (start (new 2))).isRunning = false ∧
    ((clear (start (new 2))).intervalId = none ∧ (clear (start (new 2))).armed = []) := by
  have h := clear_resets_state (start (new 2))
  exact ⟨h.1, h.2.1, h.2.2.1, h.2.2.2.1, h.2.2.2.2.1, h.2.2.2.2.2 (by decide)⟩

/-- Overwriting an in-range entry then reading it back gives the value. -/
lemma getD_set_self {α : Type} (d : α) (l : List α) (i : Nat) (h : i < l.length) (x : α) :
    (l.set i x).getD i d = x := by
  rw [List.getD_eq_getD_get?, List.get?_set_eq_of_lt x h]
  rfl

/-- Overwriting one entry leaves reads of any other index unchanged. -/
lemma getD_set_ne {α : Type} (d : α) (l : List α) (i j : Nat) (h : i ≠ j) (x : α) :
    (l.set i x).getD j d = l.getD j d := by
  rw [List.getD_eq_getD_get?, List.get?_set_ne x l h, ← List.getD_eq_getD_get?]

/-- An in-range defaulted read is a member of the list. -/
lemma getD_mem (g : List (List Bool)) (row : Nat) (h : row < g.length) :
    g.getD row [] ∈ g := by
  rw [List.getD_eq_get g [] h]
  exact List.get_mem g row h

/-- On an in-range row and column, `toggleCell` succeeds and its whole
effect is overwriting that one entry of `currentGrid` with its negation. -/
lemma toggleCell_in_bounds_eq (s : GameState) (row col : Nat)
    (hrow : row < s.currentGrid.length)
    (hcol : col < (s.currentGrid.getD row []).length) :
    toggleCell s row col = some { s with
      currentGrid := s.currentGrid.set row ((s.currentGrid.getD row []).set col
        (!((s.currentGrid.getD row []).getD col false))) } := by
  unfold toggleCell
  rw [show s.currentGrid.get? row = some (s.currentGrid.getD row []) from by
        rw [List.get?_eq_get hrow, List.getD_eq_get s.currentGrid [] hrow]]
  show some _ = some _
  rw [setEntry, if_pos hcol]

/-- A row index past the end of `currentGrid` makes `toggleCell` throw
(TypeError on indexing `undefined`) before mutating anything. -/
lemma toggleCell_oob_row (s : GameState) (row col : Nat)
    (h : s.currentGrid.length ≤ row) : toggleCell s row col = none := by
  unfold toggleCell
  rw [List.get?_eq_none.mpr h]

/-- Reading a grid after overwriting one row. -/
lemma cellAt_set_grid (g : List (List Bool)) (row : Nat) (hrow : row < g.length)
    (x : List Bool) (r2 c2 : Nat) :
    cellAt (g.set row x) r2 c2 =
      if r2 = row then x.getD c2 false else cellAt g r2 c2 := by
  unfold cellAt
  by_cases h : r2 = row
  · subst h
    rw [if_pos rfl, getD_set_self [] g r2 hrow x]
  · rw [if_neg h, getD_set_ne [] g row r2 (fun hh => h hh.symm) x]

/-- Reading a grid after toggling one in-range cell: that cell is negated
and every other read is unchanged. -/
lemma cellAt_toggled (g : List (List Bool)) (row col : Nat) (hrow : row < g.length)
    (hcol : col < (g.getD row []).length) (r2 c2 : Nat) :
    cellAt (g.set row ((g.getD row []).set col
        (!((g.getD row []).getD col false)))) r2 c2 =
      if r2 = row ∧ c2 = col then !(cellAt g r2 c2) else cellAt g r2 c2 := by
  rw [cellAt_set_grid g row hrow _ r2 c2]
  by_cases h2 : r2 = row
  · subst h2
    rw [if_pos rfl]
    by_cases h3 : c2 = col
    · subst h3
      rw [getD_set_self false _ c2 hcol _, if_pos ⟨rfl, rfl⟩]
      rfl
    · rw [getD_set_ne false _ col c2 (fun hh => h3 hh.symm) _, if_neg (fun hh => h3 hh.2)]
      rfl
  · rw [if_neg h2, if_neg (fun hh => h2 hh.1)]

/-- Claim C6 counterexample: on a 2 x 2 engine, `toggleCell(0, 5)` — column
out of `[0, 2)` — neither fails with an OutOfBoundsError (no such error
exists in the source) nor leaves the state unchanged: the JS write extends
row 0 and sets its index 5 to true. -/
theorem toggleCell_oob_mutates_state :
    (toggleCell (new 2) 0 5).isSome = true ∧
    ((toggleCell (new 2) 0 5).getD (new 2)).currentGrid ≠ (new 2).currentGrid :=
  ⟨rfl, by decide⟩

/-- Claim C6 (amended): `toggleCell` performs no bounds validation and no
OutOfBoundsError exists.  With in-bounds coordinates it flips exactly that
one cell of `currentGrid`, leaving every other cell, the other grid, the
generation counter, `isRunning`, the speed and the timer state unchanged.
With an out-of-bounds row it throws a TypeError before mutating anything
(state preserved, but not by the claimed validation); an out-of-bounds
column on a valid row mutates the grid instead of failing. -/
theorem toggleCell_flips_one_cell (s : GameState) (hwf : WF s) (row col : Nat)
    (hr : row < s.gridSize) (hc : col < s.gridSize) :
    ∃ s2, toggleCell s row col = some s2 ∧
      cellAt s2.currentGrid row col = !(cellAt s.currentGrid row col) ∧
      (∀ r2 c2 : Nat, ¬(r2 = row ∧ c2 = col) →
        cellAt s2.currentGrid r2 c2 = cellAt s.currentGrid r2 c2) ∧
      s2.gridSize = s.gridSize ∧ s2.nextGrid = s.nextGrid ∧
      s2.generation = s.generation ∧ s2.isRunning = s.isRunning ∧
      s2.speed = s.speed ∧ s2.intervalId = s.intervalId ∧ s2.armed = s.armed ∧
      (∀ row2 col2 : Nat, s.gridSize ≤ row2 → toggleCell s row2 col2 = none) := by
  obtain ⟨hlen, hrows⟩ := hwf
  have hrow : row < s.currentGrid.length := by rw [hlen]; exact hr
  have hcol : col < (s.currentGrid.getD row []).length := by
    rw [hrows _ (getD_mem s.currentGrid row hrow)]
    exact hc
  refine ⟨_, toggleCell_in_bounds_eq s row col hrow hcol, ?_, ?_,
    rfl, rfl, rfl, rfl, rfl, rfl, rfl, ?_⟩
  · rw [cellAt_toggled s.currentGrid row col hrow hcol row col, if_pos ⟨rfl, rfl⟩]
  · intro r2 c2 hne
    rw [cellAt_toggled s.currentGrid row col hrow hcol r2 c2, if_neg hne]
  · intro row2 col2 hge
    exact toggleCell_oob_row s row2 col2 (by rw [hlen]; exact hge)

/-- Witness for C6 on a 2 x 2 engine at cell (0, 1). -/
theorem toggleCell_flips_one_cell_witness :
    ∃ s2, toggleCell (new 2) 0 1 = some s2 ∧
      cellAt s2.currentGrid 0 1 = !(cellAt (new 2).currentGrid 0 1) ∧
      (∀ r2 c2 : Nat, ¬(r2 = 0 ∧ c2 = 1) →
        cellAt s2.currentGrid r2 c2 = cellAt (new 2).currentGrid r2 c2) ∧
      s2.gridSize = (new 2).gridSize ∧ s2.nextGrid = (new 2).nextGrid ∧
      s2.generation = (new 2).generation ∧ s2.isRunning = (new 2).isRunning ∧
      s2.speed = (new 2).speed ∧ s2.intervalId = (new 2).intervalId ∧
      s2.armed = (new 2).armed ∧
      (∀ row2 col2 : Nat, (new 2).gridSize ≤ row2 → toggleCell (new 2) row2 col2 = none) :=
  toggleCell_flips_one_cell (new 2) (by decide) 0 1 (by decide) (by decide)

/-- Claim C10: toggling the same in-bounds cell twice returns the engine
to exactly its previous state — the second toggle yields the original
state itself, and the in-between state differs only in `currentGrid`. -/
theorem toggleCell_twice_identity (s : GameState) (hwf : WF s) (row col : Nat)
    (hr : row < s.gridSize) (hc : col < s.gridSize) :
    ∃ s1, toggleCell s row col = some s1 ∧
      toggleCell s1 row col = some s ∧
      s1.generation = s.generation ∧ s1.isRunning = s.isRunning ∧
      s1.speed = s.speed := by
  obtain ⟨hlen, hrows⟩ := hwf
  have hrowg : row < s.currentGrid.length := by rw [hlen]; exact hr
  have hcolr : col < (s.currentGrid.getD row []).length := by
    rw [hrows _ (getD_mem s.currentGrid row hrowg)]
    exact hc
  set g := s.currentGrid with hg
  set r := g.getD row [] with hr0
  set v := !(r.getD col false) with hv
  refine ⟨{ s with currentGrid := g.set row (r.set col v) },
    toggleCell_in_bounds_eq s row col hrowg hcolr, ?_, rfl, rfl, rfl⟩
  have hrow1 : row < ({ s with currentGrid := g.set row (r.set col v) } : GameState).currentGrid.length := by
    show row < (g.set row (r.set col v)).length
    rw [List.length_set]
    exact hrowg
  have hcol1 : col < (({ s with currentGrid := g.set row (r.set col v) } : GameState).currentGrid.getD row []).length := by
    show col < ((g.set row (r.set col v)).getD row []).length
    rw [getD_set_self [] g row hrowg (r.set col v), List.length_set]
    exact hcolr
  rw [toggleCell_in_bounds_eq _ row col hrow1 hcol1]
  show some { s with
    currentGrid := (g.set row (r.set col v)).set row
      (((g.set row (r.set col v)).getD row []).set col
        (!(((g.set row (r.set col v)).getD row []).getD col false))) } = some s
  rw [getD_set_self [] g row hrowg (r.set col v)]
  rw [getD_set_self false r col hcolr v]
  rw [hv, Bool.not_not]
  rw [show ((r.set col (!(r.getD col false))).set col (r.getD col false))
        = r.set col (r.getD col false) from List.set_set _ _ r col]
  rw [set_getD_self false r col hcolr]
  rw [show (g.set row (r.set col (!(r.getD col false)))).set row r
        = g.set row r from List.set_set _ _ g row]
  rw [hr0, set_getD_self [] g row hrowg]

/-- Witness for C10 on a 2 x 2 engine at cell (0, 1). -/
theorem toggleCell_twice_identity_witness :
    ∃ s1, toggleCell (new 2) 0 1 = some s1 ∧
      toggleCell s1 0 1 = some (new 2) ∧
      s1.generation = (new 2).generation ∧ s1.isRunning = (new 2).isRunning ∧
      s1.speed = (new 2).speed :=
  toggleCell_twice_identity (new 2) (by decide) 0 1 (by decide) (by decide)

end GameOfLife
